import Mathlib

/-!
# Verification of the payments relay (src/app.js and variants)

Shallow embedding of the webhook reconciliation service.  Conventions:

* JS numbers are modelled as `ℚ` (the decision logic only uses ordered-field
  comparisons); the literal `0.0001` becomes `1/10000`.
* JS strings are `String`, or `List Char` where the code manipulates them
  character by character; a JSON field that may be absent is `Option _`.
* JS truthiness on strings (`""`/`undefined` are falsy) is made explicit via
  `strTruthy` / `jsOrS`; on numbers `0` is falsy (`qTruthy`).
* Network calls are modelled by environments recording the response the
  remote system would give; the calls a handler issues are returned in lists.
* `crypto.createHmac("sha512", Buffer.from(key,"hex")).update(body).digest("hex")`
  is an external Node primitive, modelled as a function parameter
  `hmac : List Char → List Nat → List Char` (key, body bytes ↦ hex digest).
-/

namespace Payments

/-- JS `a || b` for strings: `a` unless `a` is falsy (`""`). -/
def jsOrS (a b : String) : String := if a = "" then b else a

/-- JS truthiness filter for an optional string: `undefined` and `""` are falsy. -/
def strTruthy (o : Option String) : Option String :=
  match o with
  | some s => if s = "" then none else some s
  | none => none

/-- JS truthiness filter for an optional number: `undefined` and `0` are falsy. -/
def qTruthy (o : Option ℚ) : Option ℚ :=
  match o with
  | some x => if x = 0 then none else some x
  | none => none

/-! ## Data model -/

/-- A Zoho Books invoice as used by the handlers (src/app.js: fields read from
`data.invoice`).  `balance`/`total` may be absent in the JSON. -/
structure Invoice where
  invoice_id : String
  invoice_number : String
  customer_id : String
  balance : Option ℚ
  total : Option ℚ
deriving DecidableEq

/-- `Number(invoice.balance || 0)` (src/app.js line 198). -/
def numBalance (inv : Invoice) : ℚ := inv.balance.getD 0

/-- The `payload` object of an Authorize.Net webhook event
(src/app.js lines 184-188).  String fields use `""` for absent
(the code immediately applies `|| ""` or uses them where `undefined`
and `""` behave alike); `authAmount` may be absent. -/
structure CapturePayload where
  id : String
  authAmount : Option ℚ
  invoiceNumber : String
  description : String
deriving DecidableEq

/-- `event.payload || {}`: the empty object default. -/
def CapturePayload.empty : CapturePayload := ⟨"", none, "", ""⟩

/-- `Number(amount || 0)` where `amount = payload.authAmount` (src/app.js line 199). -/
def capturedAmount (p : CapturePayload) : ℚ := p.authAmount.getD 0

/-- A parsed webhook event (src/app.js lines 168-184). -/
structure CaptureEvent where
  eventType : String
  payload : Option CapturePayload
deriving DecidableEq

/-- The JSON body POSTed to Zoho `customerpayments`
(src/app.js `createZohoPaymentForInvoiceAmount`, lines 92-130; the `date`
field, the current calendar day, is environmental and omitted). -/
structure PaymentWrite where
  customer_id : String
  amount : ℚ
  payment_mode : String
  reference_number : String
  description : String
  invoice_id : String
  amount_applied : ℚ
deriving DecidableEq

/-- Builds the payment payload exactly as `createZohoPaymentForInvoiceAmount`
does from its arguments (src/app.js lines 95-108). -/
def mkPaymentWrite (invoice : Invoice) (amount : ℚ) (refNum desc : String) :
    PaymentWrite :=
  ⟨invoice.customer_id, amount, "Authorize.Net", jsOrS refNum "", jsOrS desc "",
    invoice.invoice_id, amount⟩

/-! ## Reconciliation engine (src/app.js lines 176-226, after JSON parse) -/

/-- Which branch of the webhook handler was taken (observable in the logs). -/
inductive Outcome
  | badJson
  | ignored
  | noInvoiceId
  | fetchError
  | alreadySettled
  | overpayment
  | applied
  | writeError
deriving DecidableEq

/-- Responses of the remote Zoho system for one webhook delivery:
what `getZohoInvoice` returns (`none` = it throws), and whether the
payment POST succeeds (`code == 0`). -/
structure ZohoEnv where
  invoice : Option Invoice
  writeOk : Bool
deriving DecidableEq

/-- Result of the post-parse part of the handler: branch taken, invoice ids
fetched, payment writes issued (issued even if Zoho then rejects them),
and the advisory response body. -/
structure ReconcileResult where
  outcome : Outcome
  fetches : List String
  writes : List PaymentWrite
  resBody : String
deriving DecidableEq

/-- The `0.0001` tolerance in the overpayment guard (src/app.js line 206). -/
def epsilon : ℚ := 1 / 10000

/-- src/app.js lines 176-226: the webhook handler after `JSON.parse`
succeeded.  Event-type filter, invoice-id resolution from
`payload.invoiceNumber`, fresh invoice fetch, the balance-gated decision
table, and the payment write. -/
def reconcileCore (env : ZohoEnv) (event : CaptureEvent) : ReconcileResult :=
  if event.eventType ≠ "net.authorize.payment.authcapture.created" then
    ⟨.ignored, [], [], "ignored"⟩
  else
    let payload := event.payload.getD CapturePayload.empty
    let anetTxnId := payload.id
    let zohoInvoiceId := jsOrS payload.invoiceNumber ""
    if zohoInvoiceId = "" then ⟨.noInvoiceId, [], [], "no invoice id"⟩
    else
      match env.invoice with
      | none => ⟨.fetchError, [zohoInvoiceId], [], "ok"⟩
      | some invoice =>
        let pretty := invoice.invoice_number
        let invoiceBalance := invoice.balance.getD 0
        let paymentAmount := payload.authAmount.getD 0
        if invoiceBalance ≤ 0 then ⟨.alreadySettled, [zohoInvoiceId], [], "ok"⟩
        else if invoiceBalance + epsilon < paymentAmount then
          ⟨.overpayment, [zohoInvoiceId], [], "ok"⟩
        else
          let w := mkPaymentWrite invoice paymentAmount anetTxnId
            ("Invoice " ++ pretty ++ " paid via Authorize.Net")
          if env.writeOk then ⟨.applied, [zohoInvoiceId], [w], "ok"⟩
          else ⟨.writeError, [zohoInvoiceId], [w], "ok"⟩

/-! ## Token cache (src/app.js lines 29-68) -/

/-- The module-level mutable cache `zohoTokenCache`. -/
structure TokenCache where
  access_token : Option String
  expires_at : ℤ
deriving DecidableEq

/-- Result of `getZohoAccessToken`: the returned token, or the thrown
error's message. -/
inductive TokenResult
  | ok (token : String)
  | error (msg : String)
deriving DecidableEq

/-- JSON of the OAuth refresh response (fields may be absent). -/
structure RefreshResponse where
  access_token : Option String
  expires_in : Option ℤ
  error_description : Option String
  error : Option String
deriving DecidableEq

/-- src/app.js lines 40-67: the refresh branch of `getZohoAccessToken`.
`now2` is the second `Date.now()` (line 64).  On `!data.access_token` the
cache is untouched and the error message is
`data.error_description || data.error || "Could not get Zoho access token"`;
on success the cache is set to the new token with expiry
`now2 + (expires_in ? expires_in * 1000 : 3600000)`. -/
def refreshZohoToken (cache : TokenCache) (resp : RefreshResponse) (now2 : ℤ) :
    TokenCache × ℕ × TokenResult :=
  match strTruthy resp.access_token with
  | none =>
    (cache, 1, .error ((strTruthy resp.error_description).getD
      ((strTruthy resp.error).getD "Could not get Zoho access token")))
  | some tok =>
    let expiresMs : ℤ :=
      match resp.expires_in with
      | some s => if s ≠ 0 then s * 1000 else 3600000
      | none => 3600000
    (⟨some tok, now2 + expiresMs⟩, 1, .ok tok)

/-- src/app.js lines 34-68, `getZohoAccessToken`.  `now` is `Date.now()` at
entry, `resp` the refresh endpoint's response, `now2` the `Date.now()` at
line 64.  Returns the cache afterwards, the number of refresh network calls
issued (0 or 1), and the token or the thrown error message. -/
def getZohoAccessToken (cache : TokenCache) (now : ℤ) (resp : RefreshResponse)
    (now2 : ℤ) : TokenCache × ℕ × TokenResult :=
  match strTruthy cache.access_token with
  | some tok =>
    if cache.expires_at > now + 5000 then (cache, 0, .ok tok)
    else refreshZohoToken cache resp now2
  | none => refreshZohoToken cache resp now2

/-! ## Webhook signature verifier (src/app.js lines 141-166)

The verifier works on the raw header and body.  JS strings are `List Char`
here because the code lowercases, splits and compares them character-wise.
-/

/-- `p.startsWithL l`: `l` begins with the characters `p` (JS `startsWith`). -/
def startsWithL : List Char → List Char → Bool
  | [], _ => true
  | _ :: _, [] => false
  | p :: ps, c :: cs => p == c && startsWithL ps cs

/-- `"sha512="` as a character list. -/
def sha512Low : List Char := "sha512=".toList

/-- src/app.js lines 141-166: computes `signatureOk`.
`hmac key body` stands for the external
`crypto.createHmac("sha512", Buffer.from(key,"hex")).update(body).digest("hex")`.
The header and key must be truthy; the lowercased header must start with
`sha512=`; `lower.split("=", 2)[1]` is the segment of the lowercased header
between the first and second `=` (or its end); the digest and that segment
are compared after `toLowerCase()`. -/
def anetVerify (hmac : List Char → List Nat → List Char)
    (webhookKey sigHeader : Option (List Char)) (body : List Nat) : Bool :=
  match sigHeader, webhookKey with
  | some sh, some key =>
    if sh = [] ∨ key = [] then false
    else
      let lower := sh.map Char.toLower
      if startsWithL sha512Low lower then
        let sentSig := (lower.drop 7).takeWhile (fun c => c ≠ '=')
        if (hmac key body).map Char.toLower = sentSig.map Char.toLower then
          true
        else false
      else false
  | _, _ => false

/-! ## The full webhook handler (src/app.js lines 136-227) -/

/-- What the route handler sends back and did: HTTP status, response body,
the computed `signatureOk` flag, and the reconciliation effects. -/
structure HandlerResult where
  status : ℕ
  resBody : String
  signatureOk : Bool
  fetches : List String
  writes : List PaymentWrite
  outcome : Outcome
deriving DecidableEq

/-- src/app.js lines 136-227, `app.post("/anet-webhook")`.  `parsed` is the
result of `JSON.parse(req.body.toString())` (`none` = it throws).  The
signature check never returns early; every path answers HTTP 200. -/
def anetWebhook (env : ZohoEnv) (hmac : List Char → List Nat → List Char)
    (webhookKey sigHeader : Option (List Char)) (rawBody : List Nat)
    (parsed : Option CaptureEvent) : HandlerResult :=
  let sigOk := anetVerify hmac webhookKey sigHeader rawBody
  match parsed with
  | none => ⟨200, "bad json", sigOk, [], [], .badJson⟩
  | some event =>
    let r := reconcileCore env event
    ⟨200, r.resBody, sigOk, r.fetches, r.writes, r.outcome⟩

/-! ## The external ledger and event replay

Modelled from the spec: Zoho Books itself is not part of this repository.
Spec §3 ("`balance`: remaining amount owed, ... monotonically non-increasing
as payments are applied") and §4.5 step 3 ("the remote balance **is** the
ledger"): recording a payment of `amount_applied` against an invoice lowers
its balance by that amount. -/
def applyWrite (inv : Invoice) (w : PaymentWrite) : Invoice :=
  { inv with balance := some (inv.balance.getD 0 - w.amount_applied) }

/-- Applying every write of a reconciliation run to the remote ledger. -/
def applyWrites (inv : Invoice) (ws : List PaymentWrite) : Invoice :=
  ws.foldl applyWrite inv

/-- Delivering the same capture event twice against a live balance source
(Zoho accepting writes): the second call fetches the invoice as updated by
the first call's writes. -/
def replayTwice (event : CaptureEvent) (inv : Invoice) :
    ReconcileResult × ReconcileResult :=
  let r1 := reconcileCore ⟨some inv, true⟩ event
  let r2 := reconcileCore ⟨some (applyWrites inv r1.writes), true⟩ event
  (r1, r2)

/-! ## The /pay route and the gateway token request -/

/-- JS `Number(x).toFixed(2)`, as the exact rational value of the rendered
decimal: the integer `n` with `n/100` closest to `x`, ties toward the larger
`n` (ECMA-262 `Number.prototype.toFixed`). -/
def jsToFixed2 (x : ℚ) : ℚ := (⌊x * 100 + 1 / 2⌋ : ℚ) / 100

/-- The parts of the `getHostedPaymentPageRequest` body that vary per call
(src/app.js lines 314-343): the formatted amount (`none` = `NaN`, when the
variant's `invoice.balance || invoice.total` is `undefined`), and the
`order` field. -/
structure AnetTokenRequest where
  amount : Option ℚ
  invoiceNumber : String
  description : String
deriving DecidableEq

/-- Remote responses for one `/pay` invocation: the invoice fetch result,
whether `ANET_LOGIN && ANET_KEY` are configured, and the gateway's `token`
field (`none`/`""` = absent). -/
structure PayEnv where
  invoice : Option Invoice
  credsPresent : Bool
  anetToken : Option String
deriving DecidableEq

/-- Status and gateway token requests issued by a `/pay` invocation. -/
structure PayResult where
  status : ℕ
  requests : List AnetTokenRequest
deriving DecidableEq

/-- src/app.js lines 314-327 (`getAuthorizeNetToken`): the token request
built by the primary handler — `amount: Number(amount).toFixed(2)`,
`order.invoiceNumber = invoiceId`,
`order.description = prettyNumber ? "Invoice " + prettyNumber : "Invoice"`. -/
def mkAnetTokenRequest (amount : ℚ) (invoiceId prettyNumber : String) :
    AnetTokenRequest :=
  ⟨some (jsToFixed2 amount), invoiceId,
    if prettyNumber ≠ "" then "Invoice " ++ prettyNumber else "Invoice"⟩

/-- src/app.js lines 364-404, `app.get("/pay")` (primary variant): missing
`invoice_id` → 400; fetch failure → caught, 500; `Number(invoice.balance||0)
<= 0` → 400 "already paid"; otherwise one gateway token request for the
balance; absent credentials throw before the request, an absent token in the
gateway's answer throws after it (both caught as 500). -/
def payRoute (env : PayEnv) (invoice_id : Option String) : PayResult :=
  match strTruthy invoice_id with
  | none => ⟨400, []⟩
  | some invoiceId =>
    match env.invoice with
    | none => ⟨500, []⟩
    | some invoice =>
      let balance := invoice.balance.getD 0
      if balance ≤ 0 then ⟨400, []⟩
      else if ¬ env.credsPresent then ⟨500, []⟩
      else
        let req := mkAnetTokenRequest balance invoiceId invoice.invoice_number
        match strTruthy env.anetToken with
        | none => ⟨500, [req]⟩
        | some _ => ⟨200, [req]⟩

/-- src/unnamed/part_003 lines 277-307 (`getAuthorizeNetToken`, variant):
`order.invoiceNumber = invoiceNumber || invoiceId` and
`order.description = "zoho_invoice_id=" + invoiceId`; `amount` may be the
raw `invoice.balance || invoice.total`, so `Number(undefined)` renders as
`NaN` (`none`). -/
def mkAnetTokenRequestVariant (amount : Option ℚ) (invoiceId invoiceNumber : String) :
    AnetTokenRequest :=
  ⟨amount.map jsToFixed2, jsOrS invoiceNumber invoiceId,
    "zoho_invoice_id=" ++ invoiceId⟩

/-- src/unnamed/part_003 lines 328-362, `app.get("/pay")` (variant): no
balance gate — the amount sent is `invoice.balance || invoice.total`. -/
def payRouteVariant (env : PayEnv) (invoice_id : Option String) : PayResult :=
  match strTruthy invoice_id with
  | none => ⟨400, []⟩
  | some invoiceId =>
    match env.invoice with
    | none => ⟨500, []⟩
    | some invoice =>
      let amount : Option ℚ :=
        match qTruthy invoice.balance with
        | some b => some b
        | none => invoice.total
      if ¬ env.credsPresent then ⟨500, []⟩
      else
        let req := mkAnetTokenRequestVariant amount invoiceId invoice.invoice_number
        match strTruthy env.anetToken with
        | none => ⟨500, [req]⟩
        | some _ => ⟨200, [req]⟩

/-! ## Invoice-reference extraction (src/unnamed/part_003 lines 181-199)

`description.match(/zoho_invoice_id=([A-Za-z0-9]+)/)`: scan left to right
for the literal token followed by at least one alphanumeric character, the
capture being the maximal alphanumeric run; on no match fall back to
`payload.invoiceNumber`. -/

/-- `[A-Za-z0-9]` (JS regex character class; `Char.isAlpha`/`isDigit` are
exactly the ASCII ranges). -/
def isAlnumChar (c : Char) : Bool := c.isAlpha || c.isDigit

/-- Try to match `pat` followed by a nonempty alphanumeric run at the head
of `l`; return the run. -/
def tryMatchTokenAt (pat l : List Char) : Option (List Char) :=
  if startsWithL pat l then
    if (l.drop pat.length).takeWhile isAlnumChar = [] then none
    else some ((l.drop pat.length).takeWhile isAlnumChar)
  else none

/-- First match of `pat=([A-Za-z0-9]+)`-style scanning over `l`. -/
def findToken (pat : List Char) : List Char → Option (List Char)
  | [] => none
  | c :: rest =>
    match tryMatchTokenAt pat (c :: rest) with
    | some r => some r
    | none => findToken pat rest

/-- The token literal the code embeds and parses: `zoho_invoice_id=`. -/
def zohoTokenPat : List Char := "zoho_invoice_id=".toList

/-- src/unnamed/part_003 lines 187-194: the invoice reference is the
captured group of the first `zoho_invoice_id=<alnum>` match in the
description, else `payload.invoiceNumber`. -/
def extractZohoInvoiceId (description invoiceNumber : List Char) : List Char :=
  match findToken zohoTokenPat description with
  | some r => r
  | none => invoiceNumber

/-- Modelled from the spec: spec §3 and C8 name the token pattern
`invoice_ref=<alphanumeric>` — extraction as the spec's words describe it,
with the literal `invoice_ref=`. -/
def specExtractInvoiceRef (description invoiceNumber : List Char) : List Char :=
  match findToken "invoice_ref=".toList description with
  | some r => r
  | none => invoiceNumber

/-- Modelled from the spec: the claim C4 pattern `SHA512=<hex>` — the header
matches when, case-insensitively, it is `sha512=` followed by hex digits
only. -/
def matchesSigPatternSpec (s : List Char) : Bool :=
  startsWithL sha512Low (s.map Char.toLower) &&
    ((s.drop 7).all fun c => c.isDigit || ('a' ≤ c.toLower && c.toLower ≤ 'f'))

/-! ## Helper lemmas -/

lemma jsOrS_empty_right (s : String) : jsOrS s "" = s := by
  unfold jsOrS
  split
  · simp_all
  · rfl

/-- The handler after all of C1's side conditions are resolved: only the
decision table remains. -/
lemma reconcileCore_resolved (env : ZohoEnv) (e : CaptureEvent)
    (p : CapturePayload) (inv : Invoice)
    (hp : e.payload = some p)
    (ht : e.eventType = "net.authorize.payment.authcapture.created")
    (hid : p.invoiceNumber ≠ "")
    (hfetch : env.invoice = some inv) :
    reconcileCore env e =
      if numBalance inv ≤ 0 then
        ⟨.alreadySettled, [p.invoiceNumber], [], "ok"⟩
      else if numBalance inv + epsilon < capturedAmount p then
        ⟨.overpayment, [p.invoiceNumber], [], "ok"⟩
      else if env.writeOk then
        ⟨.applied, [p.invoiceNumber],
          [mkPaymentWrite inv (capturedAmount p) p.id
            ("Invoice " ++ inv.invoice_number ++ " paid via Authorize.Net")], "ok"⟩
      else
        ⟨.writeError, [p.invoiceNumber],
          [mkPaymentWrite inv (capturedAmount p) p.id
            ("Invoice " ++ inv.invoice_number ++ " paid via Authorize.Net")], "ok"⟩ := by
  unfold reconcileCore
  rw [ht, hp, hfetch]
  simp only [ne_eq, not_true_eq_false, if_false, Option.getD_some, jsOrS_empty_right,
    hid, if_neg, numBalance, capturedAmount]

/-! ## C1 -/

/-- C1: for a capture event of the accepted type whose invoice reference
resolves to a freshly fetched invoice, the reconciliation decision table
holds, its rows tried in order: balance ≤ 0 gives AlreadySettled and no
payment write; otherwise a captured amount above balance + 0.0001 gives
Overpayment and no payment write; and for 0 < captured ≤ balance exactly
one payment write is issued, with `amount_applied` the captured amount and
`reference_number` the gateway transaction id. -/
theorem C1_decision_table (env : ZohoEnv) (e : CaptureEvent)
    (p : CapturePayload) (inv : Invoice)
    (hp : e.payload = some p)
    (ht : e.eventType = "net.authorize.payment.authcapture.created")
    (hid : p.invoiceNumber ≠ "")
    (hfetch : env.invoice = some inv) :
    (numBalance inv ≤ 0 →
      (reconcileCore env e).outcome = .alreadySettled ∧
      (reconcileCore env e).writes = [])
    ∧ (0 < numBalance inv → numBalance inv + epsilon < capturedAmount p →
      (reconcileCore env e).outcome = .overpayment ∧
      (reconcileCore env e).writes = [])
    ∧ (0 < capturedAmount p → capturedAmount p ≤ numBalance inv →
      (reconcileCore env e).writes.length = 1 ∧
      ∀ w ∈ (reconcileCore env e).writes,
        w.amount_applied = capturedAmount p ∧ w.reference_number = p.id) := by
  rw [reconcileCore_resolved env e p inv hp ht hid hfetch]
  refine ⟨fun h0 => ?_, fun hpos hover => ?_, fun hcap hle => ?_⟩
  · rw [if_pos h0]
    exact ⟨rfl, rfl⟩
  · rw [if_neg (by linarith), if_pos hover]
    exact ⟨rfl, rfl⟩
  · have hb : ¬ numBalance inv ≤ 0 := by linarith
    have ho : ¬ numBalance inv + epsilon < capturedAmount p := by
      have : (0 : ℚ) < epsilon := by norm_num [epsilon]
      linarith
    rw [if_neg hb, if_neg ho]
    cases hw : env.writeOk <;> simp [mkPaymentWrite, jsOrS_empty_right]

/-- Witness for C1 at a concrete input: invoice balance 50, captured 50. -/
theorem C1_decision_table_witness :
    ((reconcileCore ⟨some ⟨"I1", "INV-1", "C1", some 50, some 50⟩, true⟩
        ⟨"net.authorize.payment.authcapture.created",
          some ⟨"T1", some 50, "I1", ""⟩⟩).writes.length = 1 ∧
      ∀ w ∈ (reconcileCore ⟨some ⟨"I1", "INV-1", "C1", some 50, some 50⟩, true⟩
        ⟨"net.authorize.payment.authcapture.created",
          some ⟨"T1", some 50, "I1", ""⟩⟩).writes,
        w.amount_applied = capturedAmount ⟨"T1", some 50, "I1", ""⟩ ∧
        w.reference_number = "T1") := by
  have h := C1_decision_table
    ⟨some ⟨"I1", "INV-1", "C1", some 50, some 50⟩, true⟩
    ⟨"net.authorize.payment.authcapture.created", some ⟨"T1", some 50, "I1", ""⟩⟩
    ⟨"T1", some 50, "I1", ""⟩ ⟨"I1", "INV-1", "C1", some 50, some 50⟩
    rfl rfl (by decide) rfl
  exact h.2.2 (by norm_num [capturedAmount]) (by norm_num [capturedAmount, numBalance])

/-! ## C5 -/

/-- C5: every request to the webhook endpoint — signature failure,
unparseable JSON, unknown event type, missing invoice reference, or an
error while fetching the invoice or writing the payment — is answered with
HTTP status 200. -/
theorem C5_always_200 (env : ZohoEnv) (hmac : List Char → List Nat → List Char)
    (webhookKey sigHeader : Option (List Char)) (rawBody : List Nat)
    (parsed : Option CaptureEvent) :
    (anetWebhook env hmac webhookKey sigHeader rawBody parsed).status = 200 := by
  cases parsed <;> rfl

/-! ## C9 -/

/-- C9: the webhook handler's processing is independent of the signature
verification result — for the same body (same raw bytes and parse result)
and the same remote state, any two signature headers produce the same
invoice fetches, the same payment writes, the same outcome, the same status
and the same response body; `signatureOk` never gates processing. -/
theorem C9_signature_never_gates (env : ZohoEnv)
    (hmac : List Char → List Nat → List Char) (webhookKey : Option (List Char))
    (rawBody : List Nat) (parsed : Option CaptureEvent)
    (sigHeader₁ sigHeader₂ : Option (List Char)) :
    (anetWebhook env hmac webhookKey sigHeader₁ rawBody parsed).fetches =
      (anetWebhook env hmac webhookKey sigHeader₂ rawBody parsed).fetches
    ∧ (anetWebhook env hmac webhookKey sigHeader₁ rawBody parsed).writes =
      (anetWebhook env hmac webhookKey sigHeader₂ rawBody parsed).writes
    ∧ (anetWebhook env hmac webhookKey sigHeader₁ rawBody parsed).outcome =
      (anetWebhook env hmac webhookKey sigHeader₂ rawBody parsed).outcome
    ∧ (anetWebhook env hmac webhookKey sigHeader₁ rawBody parsed).status =
      (anetWebhook env hmac webhookKey sigHeader₂ rawBody parsed).status
    ∧ (anetWebhook env hmac webhookKey sigHeader₁ rawBody parsed).resBody =
      (anetWebhook env hmac webhookKey sigHeader₂ rawBody parsed).resBody := by
  cases parsed <;> exact ⟨rfl, rfl, rfl, rfl, rfl⟩

/-! ## C10 -/

/-- C10: for an accepted capture event resolving to an invoice with positive
balance, an absent or zero `authAmount` is coerced to 0, which passes both
guards (0 is not above balance + 0.0001, and the balance is not ≤ 0), so a
payment write of amount 0 is issued rather than skipped; with the write
accepted the Applied branch is taken. -/
theorem C10_zero_amount_applied (env : ZohoEnv) (e : CaptureEvent)
    (p : CapturePayload) (inv : Invoice)
    (hp : e.payload = some p)
    (ht : e.eventType = "net.authorize.payment.authcapture.created")
    (hid : p.invoiceNumber ≠ "")
    (hfetch : env.invoice = some inv)
    (hbal : 0 < numBalance inv)
    (hamt : p.authAmount = none ∨ p.authAmount = some 0) :
    ((reconcileCore env e).writes.map PaymentWrite.amount_applied = [0])
    ∧ (env.writeOk = true → (reconcileCore env e).outcome = .applied) := by
  have hcap : capturedAmount p = 0 := by
    rcases hamt with h | h <;> simp [capturedAmount, h]
  rw [reconcileCore_resolved env e p inv hp ht hid hfetch]
  have hb : ¬ numBalance inv ≤ 0 := by linarith
  have ho : ¬ numBalance inv + epsilon < capturedAmount p := by
    rw [hcap]
    have : (0 : ℚ) < epsilon := by norm_num [epsilon]
    linarith
  rw [if_neg hb, if_neg ho]
  cases hw : env.writeOk <;> simp [mkPaymentWrite, hcap]

/-- Witness for C10 at a concrete input: balance 75, `authAmount` absent. -/
theorem C10_zero_amount_applied_witness :
    ((reconcileCore ⟨some ⟨"I1", "INV-1", "C1", some 75, some 75⟩, true⟩
        ⟨"net.authorize.payment.authcapture.created",
          some ⟨"T2", none, "I1", ""⟩⟩).writes.map PaymentWrite.amount_applied = [0])
    ∧ (reconcileCore ⟨some ⟨"I1", "INV-1", "C1", some 75, some 75⟩, true⟩
        ⟨"net.authorize.payment.authcapture.created",
          some ⟨"T2", none, "I1", ""⟩⟩).outcome = .applied := by
  have h := C10_zero_amount_applied
    ⟨some ⟨"I1", "INV-1", "C1", some 75, some 75⟩, true⟩
    ⟨"net.authorize.payment.authcapture.created", some ⟨"T2", none, "I1", ""⟩⟩
    ⟨"T2", none, "I1", ""⟩ ⟨"I1", "INV-1", "C1", some 75, some 75⟩
    rfl rfl (by decide) rfl (by norm_num [numBalance]) (Or.inl rfl)
  exact ⟨h.1, h.2 rfl⟩

/-! ## C3 -/

/-- C3 counterexample: invoice balance 100, captured amount 100.00005
(= 2000001/20000).  The overpayment guard tolerates it (it is below
balance + 0.0001), so a payment write for 100.00005 is issued — an amount
strictly greater than the invoice's balance at decision time, leaving the
remote balance negative and refuting "any payment write issued applies an
amount no greater than the invoice's current balance". -/
theorem C3_counterexample :
    ((reconcileCore ⟨some ⟨"I1", "INV-1", "C1", some 100, some 100⟩, true⟩
        ⟨"net.authorize.payment.authcapture.created",
          some ⟨"T3", some (2000001 / 20000), "I1", ""⟩⟩).writes.map
        PaymentWrite.amount_applied = [2000001 / 20000])
    ∧ numBalance ⟨"I1", "INV-1", "C1", some 100, some 100⟩ = 100
    ∧ (100 : ℚ) < 2000001 / 20000 := by
  rw [reconcileCore_resolved _ _ ⟨"T3", some (2000001 / 20000), "I1", ""⟩
    ⟨"I1", "INV-1", "C1", some 100, some 100⟩ rfl rfl (by decide) rfl]
  norm_num [numBalance, capturedAmount, epsilon, mkPaymentWrite, jsOrS]

/-- C3 (amended): a payment write is issued only against a strictly
positive balance and applies an amount no greater than that balance plus
the 0.0001 tolerance (so the balance can be driven below zero by at most
0.0001); reconciliation issues no write whenever the current balance is
already ≤ 0. -/
theorem C3_amended_balance_floor (env : ZohoEnv) (e : CaptureEvent)
    (inv : Invoice) (hfetch : env.invoice = some inv) :
    (numBalance inv ≤ 0 → (reconcileCore env e).writes = [])
    ∧ ∀ w ∈ (reconcileCore env e).writes,
        0 < numBalance inv ∧ w.amount_applied ≤ numBalance inv + epsilon := by
  simp only [reconcileCore, hfetch, numBalance]
  split
  · exact ⟨fun _ => rfl, by simp⟩
  · split
    · exact ⟨fun _ => rfl, by simp⟩
    · split
      · exact ⟨fun _ => rfl, by simp⟩
      · split
        · rename_i hb _
          exact ⟨fun h => absurd h hb, by simp⟩
        · rename_i hb ho
          rw [not_le] at hb
          rw [not_lt] at ho
          refine ⟨fun h => absurd h (not_le.mpr hb), ?_⟩
          split <;>
          · intro w hw
            simp only [List.mem_singleton] at hw
            subst hw
            exact ⟨hb, by simpa [mkPaymentWrite] using ho⟩

/-- Witness for the amended C3 at a concrete input: an invoice with zero
balance is a no-op for any event. -/
theorem C3_amended_balance_floor_witness :
    (reconcileCore ⟨some ⟨"I1", "INV-1", "C1", some 0, some 10⟩, true⟩
      ⟨"net.authorize.payment.authcapture.created",
        some ⟨"T1", some 10, "I1", ""⟩⟩).writes = [] := by
  exact (C3_amended_balance_floor
    ⟨some ⟨"I1", "INV-1", "C1", some 0, some 10⟩, true⟩
    ⟨"net.authorize.payment.authcapture.created",
      some ⟨"T1", some 10, "I1", ""⟩⟩
    ⟨"I1", "INV-1", "C1", some 0, some 10⟩ rfl).1 (by norm_num [numBalance])

/-! ## C2 -/

/-- C2 counterexample: invoice balance 100, captured amount 30, the event
delivered twice against the live balance.  The first call applies 30 and
lowers the remote balance to 70; the replay observes 70, but 30 still
passes both guards (70 > 0 and 30 ≤ 70 + 0.0001), so the identical event is
applied a second time — refuting "at most one successful application" for
the general capture event. -/
theorem C2_counterexample :
    (replayTwice
        ⟨"net.authorize.payment.authcapture.created",
          some ⟨"T1", some 30, "I1", ""⟩⟩
        ⟨"I1", "INV-1", "C1", some 100, some 100⟩).1.outcome = .applied
    ∧ (replayTwice
        ⟨"net.authorize.payment.authcapture.created",
          some ⟨"T1", some 30, "I1", ""⟩⟩
        ⟨"I1", "INV-1", "C1", some 100, some 100⟩).1.writes.map
        PaymentWrite.amount_applied = [30]
    ∧ (replayTwice
        ⟨"net.authorize.payment.authcapture.created",
          some ⟨"T1", some 30, "I1", ""⟩⟩
        ⟨"I1", "INV-1", "C1", some 100, some 100⟩).2.outcome = .applied
    ∧ (replayTwice
        ⟨"net.authorize.payment.authcapture.created",
          some ⟨"T1", some 30, "I1", ""⟩⟩
        ⟨"I1", "INV-1", "C1", some 100, some 100⟩).2.writes.map
        PaymentWrite.amount_applied = [30] := by
  have h1 : reconcileCore ⟨some ⟨"I1", "INV-1", "C1", some 100, some 100⟩, true⟩
      ⟨"net.authorize.payment.authcapture.created",
        some ⟨"T1", some 30, "I1", ""⟩⟩ =
      ⟨.applied, ["I1"],
        [mkPaymentWrite ⟨"I1", "INV-1", "C1", some 100, some 100⟩ 30 "T1"
          "Invoice INV-1 paid via Authorize.Net"], "ok"⟩ := by
    rw [reconcileCore_resolved _ _ ⟨"T1", some 30, "I1", ""⟩
      ⟨"I1", "INV-1", "C1", some 100, some 100⟩ rfl rfl (by decide) rfl]
    norm_num [numBalance, capturedAmount, epsilon]
    rfl
  have h2 : applyWrites ⟨"I1", "INV-1", "C1", some 100, some 100⟩
      [mkPaymentWrite ⟨"I1", "INV-1", "C1", some 100, some 100⟩ 30 "T1"
        "Invoice INV-1 paid via Authorize.Net"] =
      ⟨"I1", "INV-1", "C1", some 70, some 100⟩ := by
    norm_num [applyWrites, applyWrite, mkPaymentWrite]
  have h3 : reconcileCore ⟨some ⟨"I1", "INV-1", "C1", some 70, some 100⟩, true⟩
      ⟨"net.authorize.payment.authcapture.created",
        some ⟨"T1", some 30, "I1", ""⟩⟩ =
      ⟨.applied, ["I1"],
        [mkPaymentWrite ⟨"I1", "INV-1", "C1", some 70, some 100⟩ 30 "T1"
          "Invoice INV-1 paid via Authorize.Net"], "ok"⟩ := by
    rw [reconcileCore_resolved _ _ ⟨"T1", some 30, "I1", ""⟩
      ⟨"I1", "INV-1", "C1", some 70, some 100⟩ rfl rfl (by decide) rfl]
    norm_num [numBalance, capturedAmount, epsilon]
    rfl
  simp only [replayTwice, h1, h2, h3]
  norm_num [mkPaymentWrite]

/-- C2 (amended): replaying the same CaptureEvent twice against a live
balance source yields at most one successful application whenever the
captured amount covers the invoice's balance (in particular the intended
full-balance capture): the first call applies, and the replay observes the
lowered balance ≤ 0 and is gated to AlreadySettled with no write.  (For a
captured amount at most half the balance the replay applies again, see the
counterexample.) -/
theorem C2_amended_full_capture_idempotent (e : CaptureEvent)
    (p : CapturePayload) (inv : Invoice)
    (hp : e.payload = some p)
    (ht : e.eventType = "net.authorize.payment.authcapture.created")
    (hid : p.invoiceNumber ≠ "")
    (hbal : 0 < numBalance inv)
    (hcovers : numBalance inv ≤ capturedAmount p)
    (htol : capturedAmount p ≤ numBalance inv + epsilon) :
    (replayTwice e inv).1.outcome = .applied
    ∧ (replayTwice e inv).1.writes.map PaymentWrite.amount_applied =
        [capturedAmount p]
    ∧ (replayTwice e inv).2.outcome = .alreadySettled
    ∧ (replayTwice e inv).2.writes = [] := by
  have h1 : reconcileCore ⟨some inv, true⟩ e =
      ⟨.applied, [p.invoiceNumber],
        [mkPaymentWrite inv (capturedAmount p) p.id
          ("Invoice " ++ inv.invoice_number ++ " paid via Authorize.Net")],
        "ok"⟩ := by
    rw [reconcileCore_resolved _ _ p inv hp ht hid rfl]
    rw [if_neg (by linarith), if_neg (by linarith), if_pos rfl]
  have h2 : reconcileCore
      ⟨some (applyWrites inv
        [mkPaymentWrite inv (capturedAmount p) p.id
          ("Invoice " ++ inv.invoice_number ++ " paid via Authorize.Net")]),
        true⟩ e =
      ⟨.alreadySettled, [p.invoiceNumber], [], "ok"⟩ := by
    rw [reconcileCore_resolved _ _ p _ hp ht hid rfl]
    rw [if_pos]
    simp only [applyWrites, List.foldl, applyWrite, mkPaymentWrite, numBalance,
      Option.getD_some]
    simp only [numBalance] at hbal hcovers
    linarith
  simp only [replayTwice, h1, h2]
  simp [mkPaymentWrite]

/-- Witness for the amended C2 at a concrete input: balance 100, captured
100 (the spec's INV-1 scenario). -/
theorem C2_amended_full_capture_idempotent_witness :
    (replayTwice
        ⟨"net.authorize.payment.authcapture.created",
          some ⟨"T1", some 100, "I1", ""⟩⟩
        ⟨"I1", "INV-1", "C1", some 100, some 100⟩).1.outcome = .applied
    ∧ (replayTwice
        ⟨"net.authorize.payment.authcapture.created",
          some ⟨"T1", some 100, "I1", ""⟩⟩
        ⟨"I1", "INV-1", "C1", some 100, some 100⟩).2.outcome = .alreadySettled
    ∧ (replayTwice
        ⟨"net.authorize.payment.authcapture.created",
          some ⟨"T1", some 100, "I1", ""⟩⟩
        ⟨"I1", "INV-1", "C1", some 100, some 100⟩).2.writes = [] := by
  have h := C2_amended_full_capture_idempotent
    ⟨"net.authorize.payment.authcapture.created",
      some ⟨"T1", some 100, "I1", ""⟩⟩
    ⟨"T1", some 100, "I1", ""⟩ ⟨"I1", "INV-1", "C1", some 100, some 100⟩
    rfl rfl (by decide) (by norm_num [numBalance])
    (by norm_num [numBalance, capturedAmount])
    (by norm_num [numBalance, capturedAmount, epsilon])
  exact ⟨h.1, h.2.2.1, h.2.2.2⟩

/-! ## C6 -/

/-- C6: while a cached token exists (truthy) and `expires_at` is more than
5000 ms in the future, `getZohoAccessToken` returns the cached token
unchanged with zero refresh network calls — two such calls return the
identical value; once outside the safety margin a call issues exactly one
refresh, which on success stores the new token with expiry
`now + expires_in` (in ms, the second `Date.now()`). -/
theorem C6_token_cache (c : TokenCache) (t : String) (n₁ n₂ m₁ m₂ : ℤ)
    (r₁ r₂ : RefreshResponse)
    (hc : c.access_token = some t) (ht : t ≠ "")
    (h₁ : n₁ + 5000 < c.expires_at) (h₂ : n₂ + 5000 < c.expires_at) :
    (getZohoAccessToken c n₁ r₁ m₁ = (c, 0, .ok t)
      ∧ getZohoAccessToken c n₂ r₂ m₂ = (c, 0, .ok t))
    ∧ (∀ (c' : TokenCache) (n m s : ℤ) (r : RefreshResponse) (tok : String),
        (∀ t', c'.access_token = some t' → t' ≠ "" → c'.expires_at ≤ n + 5000) →
        r.access_token = some tok → tok ≠ "" →
        r.expires_in = some s → s ≠ 0 →
        getZohoAccessToken c' n r m = (⟨some tok, m + s * 1000⟩, 1, .ok tok)) := by
  constructor
  · have fresh : ∀ (n m : ℤ) (r : RefreshResponse), n + 5000 < c.expires_at →
        getZohoAccessToken c n r m = (c, 0, .ok t) := by
      intro n m r hn
      unfold getZohoAccessToken
      rw [hc]
      simp only [strTruthy, if_neg ht]
      rw [if_pos (by linarith)]
    exact ⟨fresh n₁ m₁ r₁ h₁, fresh n₂ m₂ r₂ h₂⟩
  · intro c' n m s r tok hstale htok htokne hs hsne
    have hrefresh : refreshZohoToken c' r m = (⟨some tok, m + s * 1000⟩, 1, .ok tok) := by
      unfold refreshZohoToken
      rw [htok]
      simp only [strTruthy, if_neg htokne]
      rw [hs]
      simp only [if_pos hsne]
    unfold getZohoAccessToken
    cases hct : c'.access_token with
    | none => simpa [strTruthy] using hrefresh
    | some t' =>
      by_cases ht' : t' = ""
      · subst ht'
        simpa [strTruthy] using hrefresh
      · have := hstale t' hct ht'
        simp only [strTruthy, hct, if_neg ht']
        rw [if_neg (by linarith)]
        exact hrefresh

/-- Witness for C6 at concrete inputs: a cached token valid until 10000 ms
read at times 0 and 1000, and a refresh at time 20000 against a response
with `expires_in` 3600 s performed at 20007 ms. -/
theorem C6_token_cache_witness :
    (getZohoAccessToken ⟨some "tokA", 10000⟩ 0 ⟨none, none, none, none⟩ 3 =
      (⟨some "tokA", 10000⟩, 0, .ok "tokA")
    ∧ getZohoAccessToken ⟨some "tokA", 10000⟩ 1000 ⟨none, none, none, none⟩ 4 =
      (⟨some "tokA", 10000⟩, 0, .ok "tokA"))
    ∧ getZohoAccessToken ⟨some "tokA", 10000⟩ 20000
        ⟨some "tokB", some 3600, none, none⟩ 20007 =
      (⟨some "tokB", 20007 + 3600 * 1000⟩, 1, .ok "tokB") := by
  have h := C6_token_cache ⟨some "tokA", 10000⟩ "tokA" 0 1000 3 4
    ⟨none, none, none, none⟩ ⟨none, none, none, none⟩
    rfl (by decide) (by norm_num) (by norm_num)
  exact ⟨h.1, h.2 ⟨some "tokA", 10000⟩ 20000 20007 3600
    ⟨some "tokB", some 3600, none, none⟩ "tokB"
    (fun t' ht' _ => by norm_num)
    rfl (by decide) rfl (by decide)⟩

/-! ## C7 -/

lemma jsToFixed2_two_decimals (q : ℚ) : ∃ n : ℤ, jsToFixed2 q * 100 = (n : ℚ) := by
  refine ⟨⌊q * 100 + 1 / 2⌋, ?_⟩
  unfold jsToFixed2
  field_simp

lemma jsToFixed2_intCast (n : ℤ) : jsToFixed2 (n : ℚ) = n := by
  unfold jsToFixed2
  have hfloor : ⌊(n : ℚ) * 100 + 1 / 2⌋ = n * 100 := by
    rw [Int.floor_eq_iff]
    constructor
    · push_cast
      linarith
    · push_cast
      linarith
  rw [hfloor]
  push_cast
  field_simp

/-- C7 (amended): every gateway token request issued by the primary `/pay`
handler carries `amount` equal to the invoice's balance at token-creation
time formatted to exactly two fractional digits (100·amount is an integer).
The legacy variant handlers instead send `invoice.balance || invoice.total`
and so fall back to the invoice total when the balance is zero or absent
(see the counterexample). -/
theorem C7_amended_pay_amount (env : PayEnv) (invoice_id : Option String)
    (inv : Invoice) (hfetch : env.invoice = some inv) :
    ∀ req ∈ (payRoute env invoice_id).requests,
      req.amount = some (jsToFixed2 (numBalance inv))
      ∧ ∃ n : ℤ, jsToFixed2 (numBalance inv) * 100 = (n : ℚ) := by
  intro req hreq
  refine ⟨?_, jsToFixed2_two_decimals _⟩
  unfold payRoute at hreq
  rcases invoice_id with _ | iid
  · simp [strTruthy] at hreq
  · by_cases hiid : iid = ""
    · simp [strTruthy, hiid] at hreq
    · simp only [strTruthy, if_neg hiid, hfetch] at hreq
      split at hreq
      · simp at hreq
      · split at hreq
        · simp at hreq
        · split at hreq <;>
          · simp only [List.mem_singleton] at hreq
            subst hreq
            rfl

/-- Witness for the amended C7 at a concrete input: balance 100, one token
request for 100.00. -/
theorem C7_amended_pay_amount_witness :
    (payRoute ⟨some ⟨"I1", "INV-1", "C1", some 100, some 100⟩, true, some "tok"⟩
        (some "I1")).requests = [mkAnetTokenRequest 100 "I1" "INV-1"]
    ∧ (mkAnetTokenRequest 100 "I1" "INV-1").amount =
      some (jsToFixed2 (numBalance ⟨"I1", "INV-1", "C1", some 100, some 100⟩)) := by
  have hreq : (payRoute ⟨some ⟨"I1", "INV-1", "C1", some 100, some 100⟩, true,
      some "tok"⟩ (some "I1")).requests = [mkAnetTokenRequest 100 "I1" "INV-1"] := by
    norm_num [payRoute, strTruthy, show ("I1" = "") = False from by decide,
      show ("tok" = "") = False from by decide]
  refine ⟨hreq, ?_⟩
  have h := C7_amended_pay_amount
    ⟨some ⟨"I1", "INV-1", "C1", some 100, some 100⟩, true, some "tok"⟩
    (some "I1") ⟨"I1", "INV-1", "C1", some 100, some 100⟩ rfl
    (mkAnetTokenRequest 100 "I1" "INV-1") (by rw [hreq]; exact List.mem_singleton_self _)
  exact h.1

/-- C7 counterexample: the variant `/pay` handler (src/unnamed/part_003,
also the second half of src/app.js) computes the amount as
`invoice.balance || invoice.total`.  For an invoice with balance 0 and
total 50 it proceeds to request a hosted-payment token for 50.00, which is
not the invoice's balance (0) formatted to two digits — refuting the claim
for the invocations of the cited variant code. -/
theorem C7_counterexample :
    (payRouteVariant ⟨some ⟨"I1", "INV-7", "C1", some 0, some 50⟩, true,
        some "tok"⟩ (some "I1")).requests.map AnetTokenRequest.amount =
      [some (50 : ℚ)]
    ∧ numBalance ⟨"I1", "INV-7", "C1", some 0, some 50⟩ = 0
    ∧ jsToFixed2 (numBalance ⟨"I1", "INV-7", "C1", some 0, some 50⟩) = 0
    ∧ some (50 : ℚ) ≠ some (jsToFixed2 (numBalance ⟨"I1", "INV-7", "C1", some 0, some 50⟩)) := by
  have h0 : numBalance ⟨"I1", "INV-7", "C1", some 0, some 50⟩ = 0 := rfl
  have hz : jsToFixed2 (numBalance ⟨"I1", "INV-7", "C1", some 0, some 50⟩) = 0 := by
    rw [h0]
    exact_mod_cast jsToFixed2_intCast 0
  have h50 : jsToFixed2 (50 : ℚ) = 50 := by
    exact_mod_cast jsToFixed2_intCast 50
  refine ⟨?_, h0, hz, by rw [hz]; norm_num⟩
  simp only [payRouteVariant, strTruthy, qTruthy, mkAnetTokenRequestVariant]
  norm_num [h50, show ("I1" = "") = False from by decide,
    show ("tok" = "") = False from by decide]

/-! ## C4 -/

lemma startsWithL_self_append (p r : List Char) : startsWithL p (p ++ r) = true := by
  induction p with
  | nil => rfl
  | cons c cs ih => simp [startsWithL, ih]

lemma takeWhile_neq_of_not_mem (l : List Char) (h : '=' ∉ l) :
    l.takeWhile (fun c => c ≠ '=') = l := by
  induction l with
  | nil => rfl
  | cons c cs ih =>
    simp only [List.mem_cons, not_or] at h
    have hc : ¬(c = '=') := fun hcc => h.1 hcc.symm
    rw [List.takeWhile_cons, if_pos (by simpa using hc), ih h.2]

lemma takeWhile_neq_append (D junk : List Char) (h : '=' ∉ D) :
    (D ++ '=' :: junk).takeWhile (fun c => c ≠ '=') = D := by
  induction D with
  | nil => simp [List.takeWhile_cons]
  | cons c cs ih =>
    simp only [List.mem_cons, not_or] at h
    have hc : ¬(c = '=') := fun hcc => h.1 hcc.symm
    rw [List.cons_append, List.takeWhile_cons, if_pos (by simpa using hc), ih h.2]

lemma map_toLower_sha512Header (tail : List Char) :
    ("SHA512=".toList ++ tail).map Char.toLower =
      sha512Low ++ tail.map Char.toLower := by
  rw [List.map_append]
  rfl

lemma sha512Low_length_drop (x : List Char) : (sha512Low ++ x).drop 7 = x := by
  have h7 : (7 : ℕ) = sha512Low.length := rfl
  rw [h7, List.drop_left]

lemma sha512Header_ne_nil (tail : List Char) : "SHA512=".toList ++ tail ≠ [] := by
  intro hx
  have hlen := congrArg List.length hx
  rw [List.length_append] at hlen
  have h7 : "SHA512=".toList.length = 7 := rfl
  rw [h7] at hlen
  simp at hlen

/-- The verifier's comparison once the header is `SHA512=` followed by
`tail`: it accepts exactly when the digest (lowercased) equals the part of
the lowercased `tail` before the first `=` (lowercased again). -/
lemma anetVerify_sha512_header (hmac : List Char → List Nat → List Char)
    (key tail : List Char) (body : List Nat) (hkey : key ≠ []) :
    anetVerify hmac (some key) (some ("SHA512=".toList ++ tail)) body =
      if (hmac key body).map Char.toLower =
          ((tail.map Char.toLower).takeWhile (fun c => c ≠ '=')).map Char.toLower
        then true else false := by
  simp only [anetVerify]
  rw [if_neg (by simp [hkey, sha512Header_ne_nil tail])]
  rw [map_toLower_sha512Header]
  rw [if_pos (startsWithL_self_append _ _)]
  rw [sha512Low_length_drop]

/-- C4 (amended): the verifier accepts a header `SHA512=<digest>` exactly
for the body whose HMAC-SHA512 hex digest (under the configured secret) it
carries: the correctly signed body verifies true; any body with a different
digest verifies false; a missing header, a header whose lowercase form does
not start with `sha512=`, an empty header and an unconfigured or empty
secret all verify false, without throwing.  However the accepted hex
payload is only the segment of the header between the first and second `=`
(`split("=", 2)[1]`), so a malformed header `SHA512=<digest>=<junk>` also
verifies true (see the counterexample).  Stated for any digest function
`hmac` whose outputs are lowercase and `=`-free, as HMAC-SHA512 hex digests
are. -/
theorem C4_amended_verifier (hmac : List Char → List Nat → List Char)
    (key : List Char) (body : List Nat) (hkey : key ≠ [])
    (hout : ∀ b, (hmac key b).map Char.toLower = hmac key b ∧ '=' ∉ hmac key b) :
    (anetVerify hmac (some key) (some ("SHA512=".toList ++ hmac key body)) body
      = true)
    ∧ (∀ body', hmac key body' ≠ hmac key body →
      anetVerify hmac (some key) (some ("SHA512=".toList ++ hmac key body)) body'
        = false)
    ∧ (∀ junk, anetVerify hmac (some key)
        (some ("SHA512=".toList ++ hmac key body ++ '=' :: junk)) body = true)
    ∧ anetVerify hmac (some key) none body = false
    ∧ anetVerify hmac none (some ("SHA512=".toList ++ hmac key body)) body = false
    ∧ anetVerify hmac (some key) (some []) body = false
    ∧ anetVerify hmac (some []) (some ("SHA512=".toList ++ hmac key body)) body
      = false
    ∧ (∀ sh, startsWithL sha512Low (sh.map Char.toLower) = false →
      anetVerify hmac (some key) (some sh) body = false) := by
  obtain ⟨hlow, hne⟩ := hout body
  refine ⟨?_, ?_, ?_, rfl, rfl, ?_, ?_, ?_⟩
  · rw [anetVerify_sha512_header hmac key _ body hkey, hlow,
      takeWhile_neq_of_not_mem _ hne, hlow]
    simp
  · intro body' hdiff
    obtain ⟨hlow', _⟩ := hout body'
    rw [anetVerify_sha512_header hmac key _ body' hkey, hlow,
      takeWhile_neq_of_not_mem _ hne, hlow, hlow']
    rw [if_neg hdiff]
  · intro junk
    rw [show "SHA512=".toList ++ hmac key body ++ '=' :: junk =
      "SHA512=".toList ++ (hmac key body ++ '=' :: junk) from by simp]
    rw [anetVerify_sha512_header hmac key _ body hkey]
    rw [List.map_append, List.map_cons]
    rw [show Char.toLower '=' = '=' from rfl]
    rw [hlow, takeWhile_neq_append _ _ hne, hlow]
    simp
  · simp [anetVerify]
  · simp [anetVerify]
  · intro sh hsw
    by_cases hsh : sh = []
    · subst hsh
      simp [anetVerify]
    · simp only [anetVerify]
      rw [if_neg (by simp [hsh, hkey])]
      rw [hsw]
      simp

/-- A stand-in digest function used to instantiate the verifier theorems at
concrete inputs (the real HMAC-SHA512 is an external primitive). -/
def hmacStub : List Char → List Nat → List Char := fun _ _ => ['a', 'b']

/-- Witness for the amended C4 at a concrete input. -/
theorem C4_amended_verifier_witness :
    anetVerify hmacStub (some ['0', '0'])
      (some ("SHA512=".toList ++ hmacStub ['0', '0'] [])) [] = true := by
  exact (C4_amended_verifier hmacStub ['0', '0'] [] (by decide)
    (fun _ => ⟨by exact (by decide : List.map Char.toLower ['a', 'b'] = ['a', 'b']),
      by exact (by decide : '=' ∉ (['a', 'b'] : List Char))⟩)).1

/-- C4 counterexample: the claim's "returns true exactly when the signature
header matches the pattern `SHA512=<hex>`" fails — because the code takes
`split("=", 2)[1]`, the header `SHA512=ab=zz` (digest `ab`, then stray
`=zz`) verifies true although it does not match `SHA512=<hex>`. -/
theorem C4_counterexample :
    anetVerify hmacStub (some ['0', '0']) (some "SHA512=ab=zz".toList) [] = true
    ∧ matchesSigPatternSpec "SHA512=ab=zz".toList = false := by
  constructor
  · have h := (C4_amended_verifier hmacStub ['0', '0'] [] (by decide)
      (fun _ => ⟨by exact (by decide : List.map Char.toLower ['a', 'b'] = ['a', 'b']),
        by exact (by decide : '=' ∉ (['a', 'b'] : List Char))⟩)).2.2.1 ['z', 'z']
    simpa using h
  · decide

/-! ## C8 -/

lemma findToken_cons (pat : List Char) (c : Char) (rest : List Char) :
    findToken pat (c :: rest) =
      match tryMatchTokenAt pat (c :: rest) with
      | some r => some r
      | none => findToken pat rest := rfl

lemma findToken_eq_none (pat d : List Char)
    (h : ∀ i, i < d.length → startsWithL pat (d.drop i) = false) :
    findToken pat d = none := by
  induction d with
  | nil => rfl
  | cons c rest ih =>
    have h0 : startsWithL pat (c :: rest) = false := by
      have := h 0 (by simp)
      simpa using this
    have ht : tryMatchTokenAt pat (c :: rest) = none := by
      unfold tryMatchTokenAt
      rw [h0]
      simp
    rw [findToken_cons, ht]
    exact ih fun i hi => by
      have := h (i + 1) (by simpa using Nat.succ_lt_succ hi)
      simpa using this

lemma findToken_prepend (pat pre l : List Char)
    (h : ∀ i, i < pre.length → tryMatchTokenAt pat ((pre ++ l).drop i) = none) :
    findToken pat (pre ++ l) = findToken pat l := by
  induction pre with
  | nil => simp
  | cons c rest ih =>
    have h0 : tryMatchTokenAt pat (c :: (rest ++ l)) = none := by
      have := h 0 (by simp)
      simpa using this
    rw [List.cons_append, findToken_cons, h0]
    exact ih fun i hi => by
      have := h (i + 1) (by simpa using Nat.succ_lt_succ hi)
      simpa using this

lemma takeWhile_all_append (p : Char → Bool) (l r : List Char)
    (hl : l.all p = true) (hr : (r.take 1).all (fun c => !(p c)) = true) :
    (l ++ r).takeWhile p = l := by
  induction l with
  | nil =>
    cases r with
    | nil => rfl
    | cons c t =>
      simp only [List.take, List.all_cons, List.all_nil, Bool.and_true,
        Bool.not_eq_true'] at hr
      simp [List.takeWhile_cons, hr]
  | cons c cs ih =>
    simp only [List.all_cons, Bool.and_eq_true] at hl
    rw [List.cons_append, List.takeWhile_cons, if_pos hl.1, ih hl.2]

lemma findToken_front (pat payload post : List Char) (hpat : pat ≠ [])
    (hne : payload ≠ []) (hall : payload.all isAlnumChar = true)
    (hpost : (post.take 1).all (fun c => !(isAlnumChar c)) = true) :
    findToken pat (pat ++ payload ++ post) = some payload := by
  cases pat with
  | nil => exact absurd rfl hpat
  | cons c ps =>
    have ht : tryMatchTokenAt (c :: ps) ((c :: ps) ++ (payload ++ post)) =
        some payload := by
      unfold tryMatchTokenAt
      rw [if_pos (startsWithL_self_append _ _)]
      rw [List.drop_left]
      rw [takeWhile_all_append _ _ _ hall hpost]
      rw [if_neg hne]
    rw [List.append_assoc, List.cons_append, findToken_cons,
      ← List.cons_append, ht]

/-- C8 (amended): the invoice reference of a capture event is recovered by
scanning the free-text description for the fixed token pattern
`zoho_invoice_id=<alphanumeric>` (not `invoice_ref=<alphanumeric>` as the
claim names it): wherever the description decomposes as
`pre ++ "zoho_invoice_id=" ++ payload ++ post` with `payload` a nonempty
alphanumeric run, `post` not continuing alphanumerically and no match
starting inside `pre`, the extracted reference is exactly `payload`; when
the token never occurs, the dedicated order field (`payload.invoiceNumber`)
is used. -/
theorem C8_amended_extraction :
    (∀ d n, (∀ i, i < d.length → startsWithL zohoTokenPat (d.drop i) = false) →
      extractZohoInvoiceId d n = n)
    ∧ (∀ pre payload post n,
      (∀ i, i < pre.length →
        tryMatchTokenAt zohoTokenPat
          ((pre ++ (zohoTokenPat ++ payload ++ post)).drop i) = none) →
      payload ≠ [] → payload.all isAlnumChar = true →
      (post.take 1).all (fun c => !(isAlnumChar c)) = true →
      extractZohoInvoiceId (pre ++ (zohoTokenPat ++ payload ++ post)) n =
        payload) := by
  constructor
  · intro d n h
    unfold extractZohoInvoiceId
    rw [findToken_eq_none zohoTokenPat d h]
  · intro pre payload post n hpre hne hall hpost
    unfold extractZohoInvoiceId
    rw [findToken_prepend zohoTokenPat pre _ hpre]
    rw [findToken_front zohoTokenPat payload post (by decide) hne hall hpost]

/-- Witness for the amended C8 at concrete inputs: a description carrying
`zoho_invoice_id=AB12` yields `AB12`; a description without the token falls
back to the order field. -/
theorem C8_amended_extraction_witness :
    extractZohoInvoiceId "see zoho_invoice_id=AB12!".toList "INV".toList =
      "AB12".toList
    ∧ extractZohoInvoiceId "hello".toList "INV".toList = "INV".toList := by
  constructor
  · have h := C8_amended_extraction.2 "see ".toList "AB12".toList "!".toList
      "INV".toList (by decide) (by decide) (by decide) (by decide)
    rw [show "see zoho_invoice_id=AB12!".toList =
      "see ".toList ++ (zohoTokenPat ++ "AB12".toList ++ "!".toList) from by decide]
    exact h
  · exact C8_amended_extraction.1 "hello".toList "INV".toList (by decide)

/-- C8 counterexample: the token literal the code parses is
`zoho_invoice_id=`, not the claim's `invoice_ref=`.  For a description
containing `invoice_ref=ABC123` (which matches the claim's pattern, as
`specExtractInvoiceRef` — modelled from the spec's words — shows), the code
ignores it and falls back to the order field `INVNUM` instead of extracting
`ABC123`. -/
theorem C8_counterexample :
    specExtractInvoiceRef "invoice_ref=ABC123".toList "INVNUM".toList =
      "ABC123".toList
    ∧ extractZohoInvoiceId "invoice_ref=ABC123".toList "INVNUM".toList =
      "INVNUM".toList
    ∧ "INVNUM".toList ≠ "ABC123".toList := by
  refine ⟨by decide, by decide, by decide⟩

end Payments
